import Mathlib

/-!
Shallow embedding of the BASE-chain monitor bot (src/bot.js).

The bot keeps two persisted maps — monitored addresses (address →
lastBlock watermark + optional remark) and blacklisted contracts — and a
polling loop `checkTransactions` that fetches token-transfer records per
address, filters them through `formatTransaction`, dispatches alerts via
`sendNotification`, and advances the per-address `lastBlock` watermark.

JavaScript numbers that arise here are exact: `parseInt` of the feed's
numeric strings gives naturals, and the only fractional values are
`value / 10^decimals` and the `minTransferAmount` threshold, modelled as
exact nonnegative fractions (`Frac`, numerator/denominator over ℕ) with
comparison by cross-multiplication, bridged to ℚ by lemmas below.
-/

/-- Nonnegative fraction `num / den`; a shallow model of the JavaScript
numbers appearing in the bot (amounts and the threshold). Positivity of
`den` is carried as a hypothesis where a theorem needs it. -/
structure Frac where
  num : Nat
  den : Nat
deriving DecidableEq, Repr

/-- Comparison `a < b` of fractions by cross-multiplication. -/
def qLt (a b : Frac) : Bool := decide (a.num * b.den < b.num * a.den)

/-- Comparison `a ≤ b` of fractions by cross-multiplication. -/
def qLe (a b : Frac) : Bool := decide (a.num * b.den ≤ b.num * a.den)

/-- Division of a fraction by a natural constant (the `value / 1e9` style
rescalings in `formatAmount`). -/
def qDivNat (a : Frac) (k : Nat) : Frac := ⟨a.num, a.den * k⟩

/-- The rational value of a fraction. -/
def Frac.toRat (a : Frac) : ℚ := (a.num : ℚ) / (a.den : ℚ)

/-- ASCII lowercasing of a string, the model of JavaScript
`toLowerCase()` on the addresses handled here (list-based so that the
kernel can evaluate it on concrete inputs). -/
def lowerStr (s : String) : String := ⟨s.data.map Char.toLower⟩

/-- Whitespace trimming at both ends, the model of JavaScript `trim()`
(list-based for the same reason). -/
def trimStr (s : String) : String :=
  ⟨((s.data.dropWhile Char.isWhitespace).reverse.dropWhile Char.isWhitespace).reverse⟩

/-- Rendering of a nonnegative fraction at two decimal places, the model of
JavaScript `Number.prototype.toFixed(2)` (round half up on the exact
value): take `cents = ⌊100·q + 1/2⌋` and print `cents` with a decimal
point two digits from the right. -/
def toFixed2 (a : Frac) : String :=
  let cents := (200 * a.num + a.den) / (2 * a.den)
  toString (cents / 100) ++ "." ++ (if cents % 100 < 10 then "0" else "") ++ toString (cents % 100)

/-- Model of `formatAmount(value)` from src/bot.js: scale by 1e9/1e6/1e3
with suffix B/M/K when the value reaches that magnitude, else print the
raw value, always at two decimals. -/
def formatAmount (value : Frac) : String :=
  if qLe ⟨1000000000, 1⟩ value then toFixed2 (qDivNat value 1000000000) ++ "B"
  else if qLe ⟨1000000, 1⟩ value then toFixed2 (qDivNat value 1000000) ++ "M"
  else if qLe ⟨1000, 1⟩ value then toFixed2 (qDivNat value 1000) ++ "K"
  else toFixed2 value

/-- A token-transfer record as returned by the explorer feed, with the
numeric string fields already put through `parseInt`: `blockNumber`,
`value` and `timeStamp` always parse to naturals here, while
`tokenDecimal` is `none` when its string does not parse to a number
(JavaScript `NaN`). The `to` and `from` fields are `toAddr`/`fromAddr`
(`from` is a Lean keyword). -/
structure Tx where
  blockNumber : Nat
  hash : String
  fromAddr : String
  toAddr : String
  contractAddress : String
  tokenName : String
  tokenSymbol : String
  value : Nat
  tokenDecimal : Option Nat
  timeStamp : Nat
deriving DecidableEq, Repr

/-- Per-address record of the monitored-addresses map: the `lastBlock`
watermark and the optional `remark` label. -/
structure AddrData where
  lastBlock : Nat
  remark : Option String
deriving DecidableEq, Repr

/-- The monitored-addresses map, as an insertion-ordered association list
(JavaScript object with string keys). -/
abbrev MonMap := List (String × AddrData)

/-- The blacklist map: contract address → its `addedAt` timestamp string. -/
abbrev BlMap := List (String × String)

/-- The configuration the claims depend on: the minimum incoming-transfer
threshold `minTransferAmount` (default 0.1). -/
structure Config where
  minTransferAmount : Frac
deriving DecidableEq, Repr

/-- Effective token decimals in `formatTransaction`: the JavaScript
expression `parseInt(tx.tokenDecimal) || 18`, which falls back to 18 both
when the parse is `NaN` (`none`) and when it is `0` (falsy). -/
def effectiveDecimals (tx : Tx) : Nat :=
  match tx.tokenDecimal with
  | some d => if d == 0 then 18 else d
  | none => 18

/-- Normalized amount of a record: `parseInt(tx.value) / 10^decimals`. -/
def txAmount (tx : Tx) : Frac := ⟨tx.value, 10 ^ effectiveDecimals tx⟩

/-- Model of `formatTransaction(tx, monitorAddress)` from src/bot.js.
Returns `none` (the JavaScript `null` sentinel meaning "no alert") when
the record's token contract is blacklisted, or when the record is
incoming and its normalized amount is strictly below the threshold;
otherwise the rendered alert text. `renderTime` stands for the
locale-dependent `new Date(...).toLocaleString('zh-CN')`. -/
def formatTransaction (renderTime : Nat → String) (cfg : Config)
    (mon : MonMap) (bl : BlMap) (tx : Tx) (monitorAddress : String) : Option String :=
  let addressData := mon.lookup (lowerStr monitorAddress)
  let remark := match addressData with
    | some d => match d.remark with
      | some r => if r == "" then "未命名" else r
      | none => "未命名"
    | none => "未命名"
  let isIncoming := lowerStr tx.toAddr == lowerStr monitorAddress
  let direction := if isIncoming then "📥 买入" else "📤 卖出"
  let amount := txAmount tx
  if (bl.lookup (lowerStr tx.contractAddress)).isSome then
    none
  else if isIncoming && qLt amount cfg.minTransferAmount then
    none
  else
    some ("【" ++ remark ++ "】 " ++ direction ++ "\n" ++ tx.tokenName ++ " (" ++ tx.tokenSymbol
      ++ ")\nCA: " ++ tx.contractAddress ++ "\n数量: " ++ formatAmount amount
      ++ "\n地址: " ++ monitorAddress ++ "\n时间: " ++ renderTime tx.timeStamp)

/-- Model of `sendNotification(message)` from src/bot.js. The raw channel
send `bot.sendMessage` is a fallible `sendMessage`; the wrapper sends only
a truthy message and catches any delivery error (returning `false`, never
propagating and never retrying). The result tells whether a message was
delivered. -/
def sendNotification (sendMessage : String → Except String Unit) (message : Option String) : Bool :=
  match message with
  | some m =>
    if m == "" then false
    else
      match sendMessage m with
      | Except.ok _ => true
      | Except.error _ => false
  | none => false

/-- One iteration of the inner `for (const tx of transactions)` loop of
`checkTransactions`: the accumulator holds the address's current
`lastBlock`, the list of (alert text, delivered?) pairs attempted so far,
and how many records counted as new. Only a record whose block number is
strictly greater than the current `lastBlock` does anything: outside the
initialization phase its alert (if `formatTransaction` produced one) is
dispatched, and `lastBlock` is assigned the record's block number. -/
def processTx (renderTime : Nat → String) (cfg : Config) (mon : MonMap) (bl : BlMap)
    (sendMessage : String → Except String Unit) (isInitializing : Bool) (address : String)
    (acc : Nat × List (String × Bool) × Nat) (tx : Tx) : Nat × List (String × Bool) × Nat :=
  match acc with
  | (lb, msgs, cnt) =>
    if tx.blockNumber > lb then
      let msgs' :=
        if isInitializing then msgs
        else
          match formatTransaction renderTime cfg mon bl tx address with
          | some m => msgs ++ [(m, sendNotification sendMessage (some m))]
          | none => msgs
      (tx.blockNumber, msgs', cnt + 1)
    else (lb, msgs, cnt)

/-- Outcome of one address's slice of a `checkTransactions` tick. -/
structure TickOutcome where
  lastBlock : Nat
  attempts : List (String × Bool)
  newCount : Nat
  saves : Nat
deriving DecidableEq, Repr

/-- The body of `checkTransactions` for one monitored address: fetch gave
`transactions`; when the response is nonempty, fold the records through
`processTx` and then call `saveAddresses` once (counted in `saves`); an
empty response does nothing. -/
def checkAddressTick (renderTime : Nat → String) (cfg : Config) (mon : MonMap) (bl : BlMap)
    (sendMessage : String → Except String Unit) (isInitializing : Bool) (address : String)
    (data : AddrData) (transactions : List Tx) : TickOutcome :=
  if transactions.length > 0 then
    let r := transactions.foldl (processTx renderTime cfg mon bl sendMessage isInitializing address)
      (data.lastBlock, [], 0)
    ⟨r.1, r.2.1, r.2.2, 1⟩
  else ⟨data.lastBlock, [], 0, 0⟩

/-- Maximum block number of a list of records, the JavaScript
`Math.max(...txs.map(tx => parseInt(tx.blockNumber)))` (meaningful for a
nonempty list; over naturals the fold starts at 0). -/
def maxBlockNumber (txs : List Tx) : Nat :=
  txs.foldl (fun m tx => max m tx.blockNumber) 0

/-- One address's slice of the Bootstrap Sync loop in `init`: when the
fetch-from-0 returned records, force-set `lastBlock` to their maximum
block number; an empty response leaves the record unchanged. -/
def bootstrapSyncAddr (txs : List Tx) (data : AddrData) : AddrData :=
  if txs.length > 0 then { data with lastBlock := maxBlockNumber txs } else data

/-- The two persisted in-memory maps of the bot. -/
structure BotState where
  monitoredAddresses : MonMap
  blacklistedContracts : BlMap
deriving DecidableEq, Repr

/-- Result of one chat-command handler: the state after the handler, how
many times it persisted each snapshot (`saveAddresses` / `saveBlacklist`
calls), and the reply text it sent back. -/
structure CommandResult where
  state : BotState
  savesAddr : Nat
  savesBl : Nat
  reply : String
deriving DecidableEq, Repr

/-- Model of the address-format test, the regex
`^0x[a-f0-9]\x7b40\x7d$` with the case-insensitive flag: 42 characters,
a `0x` prefix in either case, then 40 hex digits in either case. -/
def isValidAddress (s : String) : Bool :=
  s.length == 42 && lowerStr ⟨s.data.take 2⟩ == "0x" &&
    (s.data.drop 2).all (fun c =>
      c.isDigit || (decide ('a' ≤ c) && decide (c ≤ 'f')) || (decide ('A' ≤ c) && decide (c ≤ 'F')))

/-- Model of the `/add` handler: trim and lowercase the argument, reject a
malformed or already-monitored address without touching state, otherwise
fetch the address's history (`feedTxs` is the feed's response to the
fetch-from-0), start the watermark at its maximum block (0 when empty),
insert the new entry and persist the addresses snapshot once. -/
def addCommand (st : BotState) (arg : String) (feedTxs : List Tx) : CommandResult :=
  let address := lowerStr (trimStr arg)
  if !(isValidAddress address) then ⟨st, 0, 0, "❌ 地址格式错误"⟩
  else if (st.monitoredAddresses.lookup address).isSome then ⟨st, 0, 0, "⚠️ 该地址已在监控中"⟩
  else
    let lastBlock := if feedTxs.length > 0 then maxBlockNumber feedTxs else 0
    ⟨⟨st.monitoredAddresses ++ [(address, ⟨lastBlock, none⟩)], st.blacklistedContracts⟩, 1, 0,
      "✅ 已添加监控地址:\n" ++ address ++ "\n从区块 " ++ toString lastBlock ++ " 开始监控"⟩

/-- Model of the `/remove` handler: an absent address is a validation
error leaving state untouched; a present one is deleted and the
addresses snapshot persisted once. -/
def removeCommand (st : BotState) (arg : String) : CommandResult :=
  let address := lowerStr (trimStr arg)
  if !(st.monitoredAddresses.lookup address).isSome then ⟨st, 0, 0, "❌ 该地址未在监控中"⟩
  else ⟨⟨st.monitoredAddresses.filter (fun p => p.1 != address), st.blacklistedContracts⟩, 1, 0,
    "✅ 已移除监控地址:\n" ++ address⟩

/-- Model of the `/remark` handler: an absent address is a validation
error leaving state untouched; a present one gets the trimmed remark and
the addresses snapshot is persisted once. -/
def remarkCommand (st : BotState) (argAddress argRemark : String) : CommandResult :=
  let address := lowerStr (trimStr argAddress)
  let remark := trimStr argRemark
  if !(st.monitoredAddresses.lookup address).isSome then ⟨st, 0, 0, "❌ 该地址未在监控中"⟩
  else
    ⟨⟨st.monitoredAddresses.map
        (fun p => if p.1 == address then (p.1, ⟨p.2.lastBlock, some remark⟩) else p),
      st.blacklistedContracts⟩, 1, 0,
      "✅ 已设置备注:\n" ++ address ++ "\n备注: " ++ remark⟩

/-- Model of the `/blacklist` handler: reject a malformed or
already-blacklisted contract without touching state; otherwise insert the
entry with its `addedAt` timestamp and persist the blacklist snapshot. -/
def blacklistCommand (st : BotState) (arg : String) (addedAt : String) : CommandResult :=
  let ca := lowerStr (trimStr arg)
  if !(isValidAddress ca) then ⟨st, 0, 0, "❌ 合约地址格式错误"⟩
  else if (st.blacklistedContracts.lookup ca).isSome then ⟨st, 0, 0, "⚠️ 该合约已在黑名单中"⟩
  else ⟨⟨st.monitoredAddresses, st.blacklistedContracts ++ [(ca, addedAt)]⟩, 0, 1,
    "✅ 已添加到黑名单:\n" ++ ca⟩

/-- Model of the `/unblacklist` handler: an absent contract is a
validation error leaving state untouched; a present one is deleted and
the blacklist snapshot persisted once. -/
def unblacklistCommand (st : BotState) (arg : String) : CommandResult :=
  let ca := lowerStr (trimStr arg)
  if !(st.blacklistedContracts.lookup ca).isSome then ⟨st, 0, 0, "❌ 该合约不在黑名单中"⟩
  else ⟨⟨st.monitoredAddresses, st.blacklistedContracts.filter (fun p => p.1 != ca)⟩, 0, 1,
    "✅ 已从黑名单移除:\n" ++ ca⟩

/-- A trivial timestamp renderer used for concrete evaluations. -/
def rtNull : Nat → String := fun _ => ""

/-- A channel whose send always succeeds. -/
def smOk : String → Except String Unit := fun _ => Except.ok ()

/-- A channel whose send always fails (delivery error). -/
def smFail : String → Except String Unit := fun _ => Except.error "ETELEGRAM"

/-- The default configuration: minimum incoming-transfer threshold 0.1. -/
def cfgTenth : Config := ⟨⟨1, 10⟩⟩

/-- A record at block 50, below the watermark in the restart scenario. -/
def txStale : Tx := ⟨50, "h1", "0xf", "a", "c", "tok", "T", 5, some 1, 0⟩

/-- An incoming record whose normalized amount 1/10 equals the 0.1
threshold exactly. -/
def txEqualThreshold : Tx := ⟨120, "h2", "0xf", "a", "c", "tok", "T", 1, some 1, 0⟩

/-- A large incoming record whose token contract is the blacklisted
contract `cbl`. -/
def txBlacklisted : Tx := ⟨101, "h3", "0xf", "a", "cbl", "tok", "T", 1000000, some 1, 0⟩

/-- An incoming record at block 105 whose normalized amount 1/100 is below
the 0.1 threshold (dust). -/
def txDust : Tx := ⟨105, "h4", "0xf", "a", "c", "tok", "T", 1, some 2, 0⟩

/-- A record exactly at block 100 (equal to the scenario watermark). -/
def txAt100 : Tx := ⟨100, "h5", "0xf", "x", "c", "tok", "T", 1, some 1, 0⟩

/-- An incoming record of a zero-decimal token: raw value 1 with
`tokenDecimal` 0. -/
def txZeroDec : Tx := ⟨7, "h6", "0xf", "a", "c", "tok", "T", 1, some 0, 0⟩

/-- A record at block 3, older than the bootstrap scenario's watermark 5. -/
def txLowBlock : Tx := ⟨3, "h7", "0xf", "x", "c", "tok", "T", 0, some 18, 0⟩

/-- A blacklist holding the contract `cbl`. -/
def blC : BlMap := [("cbl", "t0")]

/-- A monitored address for the command-handler scenarios. -/
def addrMonW : String := "0xaaaaaaaaaaaaaaaaaaaaaaaaaaaaaaaaaaaaaaaa"

/-- The same monitored address typed in upper case. -/
def addrMonWUpper : String := "0xAAAAAAAAAAAAAAAAAAAAAAAAAAAAAAAAAAAAAAAA"

/-- An address absent from the watch-list. -/
def addrAbsentW : String := "0xbbbbbbbbbbbbbbbbbbbbbbbbbbbbbbbbbbbbbbbb"

/-- A contract present in the blacklist of the command-handler scenarios. -/
def caPresentW : String := "0xcccccccccccccccccccccccccccccccccccccccc"

/-- A contract absent from that blacklist. -/
def caAbsentW : String := "0xdddddddddddddddddddddddddddddddddddddddd"

/-- Concrete bot state for the command-handler scenarios: one monitored
address and one blacklisted contract. -/
def stW : BotState := ⟨[(addrMonW, ⟨0, none⟩)], [(caPresentW, "t0")]⟩

theorem qLt_iff_rat (a b : Frac) (ha : 0 < a.den) (hb : 0 < b.den) :
    qLt a b = true ↔ a.toRat < b.toRat := by
  unfold qLt Frac.toRat
  rw [decide_eq_true_iff]
  rw [div_lt_div_iff₀ (by exact_mod_cast ha) (by exact_mod_cast hb)]
  exact_mod_cast Iff.rfl

theorem qLe_iff_rat (a b : Frac) (ha : 0 < a.den) (hb : 0 < b.den) :
    qLe a b = true ↔ a.toRat ≤ b.toRat := by
  unfold qLe Frac.toRat
  rw [decide_eq_true_iff]
  rw [div_le_div_iff₀ (by exact_mod_cast ha) (by exact_mod_cast hb)]
  exact_mod_cast Iff.rfl

theorem processTx_fst (rt : Nat → String) (cfg : Config) (mon : MonMap) (bl : BlMap)
    (sm : String → Except String Unit) (init : Bool) (addr : String)
    (acc : Nat × List (String × Bool) × Nat) (tx : Tx) :
    (processTx rt cfg mon bl sm init addr acc tx).1
      = if tx.blockNumber > acc.1 then tx.blockNumber else acc.1 := by
  rcases acc with ⟨lb, msgs, cnt⟩
  by_cases h : tx.blockNumber > lb <;> simp [processTx, h]

theorem foldl_processTx_mono (rt : Nat → String) (cfg : Config) (mon : MonMap) (bl : BlMap)
    (sm : String → Except String Unit) (init : Bool) (addr : String) :
    ∀ (txs : List Tx) (acc : Nat × List (String × Bool) × Nat),
      acc.1 ≤ (txs.foldl (processTx rt cfg mon bl sm init addr) acc).1 := by
  intro txs
  induction txs with
  | nil => intro acc; simp
  | cons t ts ih =>
    intro acc
    simp only [List.foldl_cons]
    refine le_trans ?_ (ih (processTx rt cfg mon bl sm init addr acc t))
    rw [processTx_fst]
    split
    · exact Nat.le_of_lt (by assumption)
    · exact Nat.le_refl _

theorem foldl_processTx_stale (rt : Nat → String) (cfg : Config) (mon : MonMap) (bl : BlMap)
    (sm : String → Except String Unit) (init : Bool) (addr : String)
    (B : Nat) (msgs : List (String × Bool)) (cnt : Nat) :
    ∀ (txs : List Tx), (∀ tx ∈ txs, tx.blockNumber ≤ B) →
      txs.foldl (processTx rt cfg mon bl sm init addr) (B, msgs, cnt) = (B, msgs, cnt) := by
  intro txs
  induction txs with
  | nil => intro _; rfl
  | cons t ts ih =>
    intro h
    have ht : ¬ (t.blockNumber > B) := Nat.not_lt.mpr (h t (List.mem_cons_self t ts))
    simp only [List.foldl_cons]
    rw [show processTx rt cfg mon bl sm init addr (B, msgs, cnt) t = (B, msgs, cnt) from by
      simp [processTx, ht]]
    exact ih (fun tx hx => h tx (List.mem_cons_of_mem _ hx))

theorem foldl_processTx_send_irrel (rt : Nat → String) (cfg : Config) (mon : MonMap) (bl : BlMap)
    (init : Bool) (addr : String) (sm1 sm2 : String → Except String Unit) :
    ∀ (txs : List Tx) (lb : Nat) (msgs1 msgs2 : List (String × Bool)) (cnt : Nat),
      msgs1.map Prod.fst = msgs2.map Prod.fst →
      (txs.foldl (processTx rt cfg mon bl sm1 init addr) (lb, msgs1, cnt)).1
          = (txs.foldl (processTx rt cfg mon bl sm2 init addr) (lb, msgs2, cnt)).1 ∧
        (txs.foldl (processTx rt cfg mon bl sm1 init addr) (lb, msgs1, cnt)).2.1.map Prod.fst
          = (txs.foldl (processTx rt cfg mon bl sm2 init addr) (lb, msgs2, cnt)).2.1.map Prod.fst ∧
        (txs.foldl (processTx rt cfg mon bl sm1 init addr) (lb, msgs1, cnt)).2.2
          = (txs.foldl (processTx rt cfg mon bl sm2 init addr) (lb, msgs2, cnt)).2.2 := by
  intro txs
  induction txs with
  | nil => intro lb msgs1 msgs2 cnt h; exact ⟨rfl, h, rfl⟩
  | cons t ts ih =>
    intro lb msgs1 msgs2 cnt h
    simp only [List.foldl_cons]
    by_cases hb : t.blockNumber > lb
    · by_cases hi : init
      · have e1 : processTx rt cfg mon bl sm1 init addr (lb, msgs1, cnt) t
            = (t.blockNumber, msgs1, cnt + 1) := by simp [processTx, hb, hi]
        have e2 : processTx rt cfg mon bl sm2 init addr (lb, msgs2, cnt) t
            = (t.blockNumber, msgs2, cnt + 1) := by simp [processTx, hb, hi]
        rw [e1, e2]
        exact ih _ _ _ _ h
      · cases hf : formatTransaction rt cfg mon bl t addr with
        | some m =>
          have e1 : processTx rt cfg mon bl sm1 init addr (lb, msgs1, cnt) t
              = (t.blockNumber, msgs1 ++ [(m, sendNotification sm1 (some m))], cnt + 1) := by
            simp [processTx, hb, hi, hf]
          have e2 : processTx rt cfg mon bl sm2 init addr (lb, msgs2, cnt) t
              = (t.blockNumber, msgs2 ++ [(m, sendNotification sm2 (some m))], cnt + 1) := by
            simp [processTx, hb, hi, hf]
          rw [e1, e2]
          refine ih _ _ _ _ ?_
          simp [h]
        | none =>
          have e1 : processTx rt cfg mon bl sm1 init addr (lb, msgs1, cnt) t
              = (t.blockNumber, msgs1, cnt + 1) := by simp [processTx, hb, hi, hf]
          have e2 : processTx rt cfg mon bl sm2 init addr (lb, msgs2, cnt) t
              = (t.blockNumber, msgs2, cnt + 1) := by simp [processTx, hb, hi, hf]
          rw [e1, e2]
          exact ih _ _ _ _ h
    · have e1 : processTx rt cfg mon bl sm1 init addr (lb, msgs1, cnt) t
          = (lb, msgs1, cnt) := by simp [processTx, hb]
      have e2 : processTx rt cfg mon bl sm2 init addr (lb, msgs2, cnt) t
          = (lb, msgs2, cnt) := by simp [processTx, hb]
      rw [e1, e2]
      exact ih _ _ _ _ h

theorem le_foldl_max (txs : List Tx) :
    ∀ a : Nat, a ≤ txs.foldl (fun m tx => max m tx.blockNumber) a := by
  induction txs with
  | nil => intro a; exact Nat.le_refl a
  | cons t ts ih =>
    intro a
    simp only [List.foldl_cons]
    exact le_trans (Nat.le_max_left a t.blockNumber) (ih _)

theorem mem_le_foldl_max (txs : List Tx) :
    ∀ (a : Nat) (tx : Tx), tx ∈ txs →
      tx.blockNumber ≤ txs.foldl (fun m tx => max m tx.blockNumber) a := by
  induction txs with
  | nil => intro a tx h; cases h
  | cons t ts ih =>
    intro a tx h
    simp only [List.foldl_cons]
    rcases List.mem_cons.mp h with h | h
    · subst h
      exact le_trans (Nat.le_max_right a tx.blockNumber) (le_foldl_max ts _)
    · exact ih _ tx h

theorem foldl_max_attained (txs : List Tx) :
    ∀ a : Nat, txs.foldl (fun m tx => max m tx.blockNumber) a = a ∨
      ∃ tx ∈ txs, txs.foldl (fun m tx => max m tx.blockNumber) a = tx.blockNumber := by
  induction txs with
  | nil => intro a; exact Or.inl rfl
  | cons t ts ih =>
    intro a
    simp only [List.foldl_cons]
    rcases ih (max a t.blockNumber) with h | ⟨tx, hmem, heq⟩
    · rw [h]
      rcases Nat.le_total a t.blockNumber with hle | hle
      · exact Or.inr ⟨t, List.mem_cons_self t ts, Nat.max_eq_right hle⟩
      · exact Or.inl (Nat.max_eq_left hle)
    · exact Or.inr ⟨tx, List.mem_cons_of_mem t hmem, heq⟩

theorem maxBlockNumber_attained (txs : List Tx) (h : txs ≠ []) :
    ∃ tx ∈ txs, maxBlockNumber txs = tx.blockNumber := by
  rcases foldl_max_attained txs 0 with h0 | hex
  · cases txs with
    | nil => exact absurd rfl h
    | cons t ts =>
      refine ⟨t, List.mem_cons_self t ts, ?_⟩
      have hle := mem_le_foldl_max (t :: ts) 0 t (List.mem_cons_self t ts)
      unfold maxBlockNumber
      rw [h0] at hle ⊢
      exact (Nat.le_zero.mp hle).symm
  · exact hex

/-- C1: for every monitored address and every sequence of feed responses
(empty, reordered or with repeated blocks), a poll tick never decreases
that address's lastBlock, and within the tick the per-record step assigns
lastBlock only when the record's block number is strictly greater than
the current lastBlock. -/
theorem tick_lastBlock_monotone (rt : Nat → String) (cfg : Config) (mon : MonMap) (bl : BlMap)
    (sm : String → Except String Unit) (init : Bool) (addr : String)
    (data : AddrData) (transactions : List Tx) :
    data.lastBlock ≤ (checkAddressTick rt cfg mon bl sm init addr data transactions).lastBlock ∧
    ∀ (acc : Nat × List (String × Bool) × Nat) (tx : Tx),
      (processTx rt cfg mon bl sm init addr acc tx).1
        = if tx.blockNumber > acc.1 then tx.blockNumber else acc.1 := by
  constructor
  · unfold checkAddressTick
    by_cases h : transactions.length > 0
    · simp only [if_pos h]
      exact foldl_processTx_mono rt cfg mon bl sm init addr transactions (data.lastBlock, [], 0)
    · simp only [if_neg h]
      exact Nat.le_refl _
  · exact processTx_fst rt cfg mon bl sm init addr

/-- C2: with persisted lastBlock B, a tick whose feed response holds only
records with block number at most B attempts no notification, counts no
new record, and leaves lastBlock at B. -/
theorem tick_no_replay (rt : Nat → String) (cfg : Config) (mon : MonMap) (bl : BlMap)
    (sm : String → Except String Unit) (init : Bool) (addr : String)
    (data : AddrData) (txs : List Tx)
    (h : ∀ tx ∈ txs, tx.blockNumber ≤ data.lastBlock) :
    (checkAddressTick rt cfg mon bl sm init addr data txs).attempts = [] ∧
    (checkAddressTick rt cfg mon bl sm init addr data txs).newCount = 0 ∧
    (checkAddressTick rt cfg mon bl sm init addr data txs).lastBlock = data.lastBlock := by
  have key : txs.foldl (processTx rt cfg mon bl sm init addr) (data.lastBlock, [], 0)
      = (data.lastBlock, ([] : List (String × Bool)), 0) :=
    foldl_processTx_stale rt cfg mon bl sm init addr data.lastBlock [] 0 txs h
  by_cases hl : txs.length > 0 <;> simp [checkAddressTick, hl, key]

/-- C2 witness: at lastBlock 100 a response holding one record at block 50
yields no attempt, no new record, and an unchanged watermark. -/
theorem tick_no_replay_witness :
    (checkAddressTick rtNull cfgTenth [] [] smOk false "a" ⟨100, none⟩ [txStale]).attempts = [] ∧
    (checkAddressTick rtNull cfgTenth [] [] smOk false "a" ⟨100, none⟩ [txStale]).newCount = 0 ∧
    (checkAddressTick rtNull cfgTenth [] [] smOk false "a" ⟨100, none⟩ [txStale]).lastBlock
      = 100 :=
  tick_no_replay rtNull cfgTenth [] [] smOk false "a" ⟨100, none⟩ [txStale] (by decide)

/-- C3 counterexample: Bootstrap Sync force-sets lastBlock to the maximum
fetched block even when that is below the prior value — with prior
lastBlock 5 and a single fetched record at block 3, the cursor regresses
to 3, refuting that the assignment never regresses. -/
theorem bootstrapSync_can_regress :
    ¬ ((⟨5, none⟩ : AddrData).lastBlock
        ≤ (bootstrapSyncAddr [txLowBlock] ⟨5, none⟩).lastBlock) := by decide

/-- C3 (amended): Bootstrap Sync sets lastBlock to the maximum block
number observed in the fetched records (an unconditional force-set, so it
does not regress only when some fetched record is at or above the prior
value), and an empty fetch leaves the record unchanged. -/
theorem bootstrapSyncAddr_spec (txs : List Tx) (data : AddrData) :
    (txs = [] → bootstrapSyncAddr txs data = data) ∧
    (txs ≠ [] →
      (bootstrapSyncAddr txs data).lastBlock = maxBlockNumber txs ∧
      (∀ tx ∈ txs, tx.blockNumber ≤ maxBlockNumber txs) ∧
      (∃ tx ∈ txs, maxBlockNumber txs = tx.blockNumber)) ∧
    ((∃ tx ∈ txs, data.lastBlock ≤ tx.blockNumber) →
      data.lastBlock ≤ (bootstrapSyncAddr txs data).lastBlock) := by
  refine ⟨?_, ?_, ?_⟩
  · intro h
    subst h
    rfl
  · intro h
    have hl : txs.length > 0 := List.length_pos.mpr h
    refine ⟨by simp [bootstrapSyncAddr, hl], fun tx hx => mem_le_foldl_max txs 0 tx hx,
      maxBlockNumber_attained txs h⟩
  · rintro ⟨tx, hmem, hle⟩
    have hne : txs ≠ [] := by
      rintro rfl
      cases hmem
    have hl : txs.length > 0 := List.length_pos.mpr hne
    have hmax : tx.blockNumber ≤ maxBlockNumber txs := mem_le_foldl_max txs 0 tx hmem
    calc data.lastBlock ≤ tx.blockNumber := hle
      _ ≤ maxBlockNumber txs := hmax
      _ = (bootstrapSyncAddr txs data).lastBlock := by simp [bootstrapSyncAddr, hl]

/-- C4: a record whose token contract (lowercased) is blacklisted never
produces an alert (formatTransaction returns the null sentinel) whatever
its direction or amount, and the tick's per-record step still advances
lastBlock to the record's block number when it exceeds the current
watermark. -/
theorem blacklist_suppresses_but_advances (rt : Nat → String) (cfg : Config) (mon : MonMap)
    (bl : BlMap) (sm : String → Except String Unit) (addr : String) (tx : Tx)
    (hbl : (bl.lookup (lowerStr tx.contractAddress)).isSome = true) :
    formatTransaction rt cfg mon bl tx addr = none ∧
    (∀ (lb cnt : Nat) (msgs : List (String × Bool)),
      tx.blockNumber > lb →
        processTx rt cfg mon bl sm false addr (lb, msgs, cnt) tx
          = (tx.blockNumber, msgs, cnt + 1)) ∧
    (∀ data : AddrData, tx.blockNumber > data.lastBlock →
      (checkAddressTick rt cfg mon bl sm false addr data [tx]).lastBlock = tx.blockNumber) := by
  have hfmt : formatTransaction rt cfg mon bl tx addr = none := by
    simp [formatTransaction, hbl]
  refine ⟨hfmt, ?_, ?_⟩
  · intro lb cnt msgs h
    simp [processTx, h, hfmt]
  · intro data h
    simp [checkAddressTick, processTx, h, hfmt]

/-- C4 witness: a concrete blacklisted incoming record is suppressed yet,
from watermark 100, one tick over it moves lastBlock to its block 101. -/
theorem blacklist_suppresses_but_advances_witness :
    formatTransaction rtNull cfgTenth [] blC txBlacklisted "a" = none ∧
    (checkAddressTick rtNull cfgTenth [] blC smOk false "a" ⟨100, none⟩
      [txBlacklisted]).lastBlock = 101 := by
  have h := blacklist_suppresses_but_advances rtNull cfgTenth [] blC smOk "a" txBlacklisted
    (by decide)
  exact ⟨h.1, h.2.2 ⟨100, none⟩ (by decide)⟩

/-- C5 counterexample: the claim quantifies over every incoming record,
but a blacklisted incoming record is suppressed even though its
normalized amount is not below the threshold — so "suppressed exactly
when amount is strictly below the minimum" fails at this input. -/
theorem threshold_exactness_fails_when_blacklisted :
    formatTransaction rtNull cfgTenth [] blC txBlacklisted "a" = none ∧
    qLt (txAmount txBlacklisted) cfgTenth.minTransferAmount = false ∧
    lowerStr txBlacklisted.toAddr = lowerStr "a" := by decide

/-- C5 (amended): for a record whose token contract is not blacklisted,
an incoming transfer (to equals the monitored address after lowercasing)
is suppressed exactly when rawValue / 10^decimals is strictly below the
threshold — so an amount exactly equal to the threshold is not
suppressed — and an outgoing non-blacklisted transfer is never
suppressed, whatever its amount. Blacklisted records are suppressed
regardless of direction and amount. -/
theorem threshold_suppression_spec (rt : Nat → String) (cfg : Config) (mon : MonMap)
    (bl : BlMap) (tx : Tx) (addr : String)
    (hden : 0 < cfg.minTransferAmount.den)
    (hbl : bl.lookup (lowerStr tx.contractAddress) = none) :
    (lowerStr tx.toAddr = lowerStr addr →
      (formatTransaction rt cfg mon bl tx addr = none ↔
        (tx.value : ℚ) / 10 ^ effectiveDecimals tx < cfg.minTransferAmount.toRat)) ∧
    (lowerStr tx.toAddr ≠ lowerStr addr →
      (formatTransaction rt cfg mon bl tx addr).isSome = true) := by
  have hd : 0 < (txAmount tx).den := by
    unfold txAmount
    exact pow_pos (by norm_num) _
  have hq := qLt_iff_rat (txAmount tx) cfg.minTransferAmount hd hden
  have hval : (txAmount tx).toRat = (tx.value : ℚ) / 10 ^ effectiveDecimals tx := by
    unfold txAmount Frac.toRat
    push_cast
    rfl
  rw [hval] at hq
  constructor
  · intro hin
    have hbeq : (lowerStr tx.toAddr == lowerStr addr) = true := beq_iff_eq.mpr hin
    have hfmt : formatTransaction rt cfg mon bl tx addr = none ↔
        qLt (txAmount tx) cfg.minTransferAmount = true := by
      cases hql : qLt (txAmount tx) cfg.minTransferAmount <;>
        simp [formatTransaction, hbl, hbeq, hql]
    exact hfmt.trans hq
  · intro hne
    have hbeq : (lowerStr tx.toAddr == lowerStr addr) = false := beq_eq_false_iff_ne.mpr hne
    simp [formatTransaction, hbl, hbeq]

/-- C5 witness: with the 0.1 threshold and an empty blacklist, the
incoming record of normalized amount exactly 1/10 satisfies the
equivalence — and is in fact not suppressed. -/
theorem threshold_suppression_spec_witness :
    (formatTransaction rtNull cfgTenth [] [] txEqualThreshold "a" = none ↔
      (txEqualThreshold.value : ℚ) / 10 ^ effectiveDecimals txEqualThreshold
        < cfgTenth.minTransferAmount.toRat) :=
  (threshold_suppression_spec rtNull cfgTenth [] [] txEqualThreshold "a"
    (by decide) (by decide)).1 (by decide)

/-- C6 counterexample: "persist exactly when the address yields at least
one new record" fails — a nonempty feed response whose only record is at
the current watermark (block 100, lastBlock 100) still triggers one
saveAddresses call although no record was new. -/
theorem save_without_new_record :
    (checkAddressTick rtNull cfgTenth [] [] smOk false "a" ⟨100, none⟩ [txAt100]).saves = 1 ∧
    (checkAddressTick rtNull cfgTenth [] [] smOk false "a" ⟨100, none⟩
      [txAt100]).newCount = 0 := by decide

/-- C6 (amended): a tick persists the watch-list for an address exactly
when that address's feed response is nonempty (even when it yields no new
record); and in the end-to-end scenario — lastBlock 100 with records at
blocks 100, 101 (blacklisted token) and 105 (below-threshold incoming) —
the tick ends at lastBlock 105, attempts zero notifications, and performs
exactly one persisted snapshot write. -/
theorem save_on_nonempty_and_scenario (rt : Nat → String) (cfg : Config) (mon : MonMap)
    (bl : BlMap) (sm : String → Except String Unit) (init : Bool) (addr : String)
    (data : AddrData) (txs : List Tx) :
    ((checkAddressTick rt cfg mon bl sm init addr data txs).saves
        = if txs.length > 0 then 1 else 0) ∧
    ((checkAddressTick rtNull cfgTenth [] blC smOk false "a" ⟨100, none⟩
        [txAt100, txBlacklisted, txDust]).lastBlock = 105 ∧
      (checkAddressTick rtNull cfgTenth [] blC smOk false "a" ⟨100, none⟩
        [txAt100, txBlacklisted, txDust]).attempts = [] ∧
      (checkAddressTick rtNull cfgTenth [] blC smOk false "a" ⟨100, none⟩
        [txAt100, txBlacklisted, txDust]).saves = 1) := by
  constructor
  · by_cases hl : txs.length > 0 <;> simp [checkAddressTick, hl]
  · exact (by decide)

/-- C7: formatAmount scales by 1e9/1e6/1e3 with suffix B/M/K according to
the magnitude of the value and renders at two decimals, with 1500 mapped
to "1.50K", 2500000 to "2.50M" and 999 to "999.00". -/
theorem formatAmount_spec (v : Frac) (hv : 0 < v.den) :
    ((1000000000 ≤ v.toRat → formatAmount v = toFixed2 (qDivNat v 1000000000) ++ "B") ∧
      (1000000 ≤ v.toRat ∧ v.toRat < 1000000000 →
        formatAmount v = toFixed2 (qDivNat v 1000000) ++ "M") ∧
      (1000 ≤ v.toRat ∧ v.toRat < 1000000 →
        formatAmount v = toFixed2 (qDivNat v 1000) ++ "K") ∧
      (v.toRat < 1000 → formatAmount v = toFixed2 v)) ∧
    formatAmount ⟨1500, 1⟩ = "1.50K" ∧
    formatAmount ⟨2500000, 1⟩ = "2.50M" ∧
    formatAmount ⟨999, 1⟩ = "999.00" := by
  have h9 := qLe_iff_rat ⟨1000000000, 1⟩ v (by norm_num) hv
  have h6 := qLe_iff_rat ⟨1000000, 1⟩ v (by norm_num) hv
  have h3 := qLe_iff_rat ⟨1000, 1⟩ v (by norm_num) hv
  have c9 : (⟨1000000000, 1⟩ : Frac).toRat = 1000000000 := by norm_num [Frac.toRat]
  have c6 : (⟨1000000, 1⟩ : Frac).toRat = 1000000 := by norm_num [Frac.toRat]
  have c3 : (⟨1000, 1⟩ : Frac).toRat = 1000 := by norm_num [Frac.toRat]
  rw [c9] at h9
  rw [c6] at h6
  rw [c3] at h3
  refine ⟨⟨?_, ?_, ?_, ?_⟩, by decide, by decide, by decide⟩
  · intro h
    have e9 : qLe ⟨1000000000, 1⟩ v = true := h9.mpr h
    simp [formatAmount, e9]
  · rintro ⟨hge, hlt⟩
    have e9 : qLe ⟨1000000000, 1⟩ v = false := by
      rw [Bool.eq_false_iff]
      intro hx
      exact absurd (h9.mp hx) (not_le.mpr hlt)
    have e6 : qLe ⟨1000000, 1⟩ v = true := h6.mpr hge
    simp [formatAmount, e9, e6]
  · rintro ⟨hge, hlt⟩
    have e9 : qLe ⟨1000000000, 1⟩ v = false := by
      rw [Bool.eq_false_iff]
      intro hx
      exact absurd (h9.mp hx) (not_le.mpr (lt_trans hlt (by norm_num)))
    have e6 : qLe ⟨1000000, 1⟩ v = false := by
      rw [Bool.eq_false_iff]
      intro hx
      exact absurd (h6.mp hx) (not_le.mpr hlt)
    have e3 : qLe ⟨1000, 1⟩ v = true := h3.mpr hge
    simp [formatAmount, e9, e6, e3]
  · intro hlt
    have e9 : qLe ⟨1000000000, 1⟩ v = false := by
      rw [Bool.eq_false_iff]
      intro hx
      exact absurd (h9.mp hx) (not_le.mpr (lt_trans hlt (by norm_num)))
    have e6 : qLe ⟨1000000, 1⟩ v = false := by
      rw [Bool.eq_false_iff]
      intro hx
      exact absurd (h6.mp hx) (not_le.mpr (lt_trans hlt (by norm_num)))
    have e3 : qLe ⟨1000, 1⟩ v = false := by
      rw [Bool.eq_false_iff]
      intro hx
      exact absurd (h3.mp hx) (not_le.mpr hlt)
    simp [formatAmount, e9, e6, e3]

/-- C7 witness: the spec's branch description applied at 1500 gives the
"K" rendering. -/
theorem formatAmount_spec_witness :
    formatAmount ⟨1500, 1⟩ = toFixed2 (qDivNat ⟨1500, 1⟩ 1000) ++ "K" :=
  (formatAmount_spec ⟨1500, 1⟩ (by decide)).1.2.2.1
    ⟨by norm_num [Frac.toRat], by norm_num [Frac.toRat]⟩

/-- C8: every failing command validation leaves both persisted maps
untouched and performs no snapshot write: adding an already-monitored
address (matched case-insensitively via lowercasing) reports "already
monitored", removing or remarking an absent address reports "not
monitored", blacklisting a present contract reports "already
blacklisted", and unblacklisting an absent contract reports "not
blacklisted". -/
theorem commands_validation_noop (st : BotState) (a1 a2 c1 c2 r : String)
    (feedTxs : List Tx) (addedAt : String)
    (h1 : (st.monitoredAddresses.lookup (lowerStr (trimStr a1))).isSome = true)
    (h2 : (st.monitoredAddresses.lookup (lowerStr (trimStr a2))).isSome = false)
    (h3 : (st.blacklistedContracts.lookup (lowerStr (trimStr c1))).isSome = true)
    (h4 : (st.blacklistedContracts.lookup (lowerStr (trimStr c2))).isSome = false) :
    (isValidAddress (lowerStr (trimStr a1)) = true →
      addCommand st a1 feedTxs = ⟨st, 0, 0, "⚠️ 该地址已在监控中"⟩) ∧
    removeCommand st a2 = ⟨st, 0, 0, "❌ 该地址未在监控中"⟩ ∧
    remarkCommand st a2 r = ⟨st, 0, 0, "❌ 该地址未在监控中"⟩ ∧
    (isValidAddress (lowerStr (trimStr c1)) = true →
      blacklistCommand st c1 addedAt = ⟨st, 0, 0, "⚠️ 该合约已在黑名单中"⟩) ∧
    unblacklistCommand st c2 = ⟨st, 0, 0, "❌ 该合约不在黑名单中"⟩ := by
  refine ⟨?_, ?_, ?_, ?_, ?_⟩
  · intro hv
    simp [addCommand, hv, h1]
  · simp [removeCommand, h2]
  · simp [remarkCommand, h2]
  · intro hv
    simp [blacklistCommand, hv, h3]
  · simp [unblacklistCommand, h4]

/-- C8 witness: on a concrete state holding one monitored address and one
blacklisted contract, the five failing validations return the state
unchanged with no snapshot write — the duplicate add matching despite
upper-case input. -/
theorem commands_validation_noop_witness :
    addCommand stW addrMonWUpper [] = ⟨stW, 0, 0, "⚠️ 该地址已在监控中"⟩ ∧
    removeCommand stW addrAbsentW = ⟨stW, 0, 0, "❌ 该地址未在监控中"⟩ ∧
    remarkCommand stW addrAbsentW "备注" = ⟨stW, 0, 0, "❌ 该地址未在监控中"⟩ ∧
    blacklistCommand stW caPresentW "2024-01-01" = ⟨stW, 0, 0, "⚠️ 该合约已在黑名单中"⟩ ∧
    unblacklistCommand stW caAbsentW = ⟨stW, 0, 0, "❌ 该合约不在黑名单中"⟩ := by
  have h := commands_validation_noop stW addrMonWUpper addrAbsentW caPresentW caAbsentW
    "备注" [] "2024-01-01" (by decide) (by decide) (by decide) (by decide)
  exact ⟨h.1 (by decide), h.2.1, h.2.2.1, h.2.2.2.1 (by decide), h.2.2.2.2⟩

/-- C9: a delivery failure is swallowed inside sendNotification (the
wrapper returns a Bool, never an error, and a null message sends
nothing), so a tick's lastBlock, attempted messages and snapshot writes
are identical under any two delivery channels, and a new record still
advances lastBlock under an always-failing channel. -/
theorem notification_failure_isolated (rt : Nat → String) (cfg : Config) (mon : MonMap)
    (bl : BlMap) (init : Bool) (addr : String) (data : AddrData) (txs : List Tx)
    (sm sm1 sm2 : String → Except String Unit) :
    sendNotification sm none = false ∧
    (∀ (m e : String), sm m = Except.error e → sendNotification sm (some m) = false) ∧
    ((checkAddressTick rt cfg mon bl sm1 init addr data txs).lastBlock
        = (checkAddressTick rt cfg mon bl sm2 init addr data txs).lastBlock ∧
      (checkAddressTick rt cfg mon bl sm1 init addr data txs).attempts.map Prod.fst
        = (checkAddressTick rt cfg mon bl sm2 init addr data txs).attempts.map Prod.fst ∧
      (checkAddressTick rt cfg mon bl sm1 init addr data txs).saves
        = (checkAddressTick rt cfg mon bl sm2 init addr data txs).saves) ∧
    (∀ tx : Tx, tx.blockNumber > data.lastBlock →
      (checkAddressTick rt cfg mon bl sm false addr data [tx]).lastBlock
        = tx.blockNumber) := by
  refine ⟨rfl, ?_, ?_, ?_⟩
  · intro m e he
    by_cases hm : m = ""
    · simp [sendNotification, hm]
    · simp [sendNotification, hm, he]
  · have h := foldl_processTx_send_irrel rt cfg mon bl init addr sm1 sm2 txs
      data.lastBlock [] [] 0 rfl
    by_cases hl : txs.length > 0
    · simp only [checkAddressTick, if_pos hl]
      exact ⟨h.1, h.2.1, trivial⟩
    · simp only [checkAddressTick, if_neg hl]
      exact ⟨trivial, trivial, trivial⟩
  · intro tx h
    simp [checkAddressTick, processTx, h]

/-- C10: a record whose tokenDecimal parses to 0 or is non-numeric falls
back to 18 decimals (the JavaScript "or 18" default), so its normalized
amount is rawValue / 10^18 — and concretely a zero-decimal incoming
transfer of raw value 1 (ten times the 0.1 threshold) is dust-suppressed
although its raw value is at or above the threshold. -/
theorem zero_decimal_fallback (tx : Tx)
    (h : tx.tokenDecimal = none ∨ tx.tokenDecimal = some 0) :
    effectiveDecimals tx = 18 ∧
    txAmount tx = ⟨tx.value, 10 ^ 18⟩ ∧
    (formatTransaction rtNull cfgTenth [] [] txZeroDec "a" = none ∧
      qLt ⟨txZeroDec.value, 1⟩ cfgTenth.minTransferAmount = false) := by
  refine ⟨?_, ?_, by decide⟩
  · rcases h with h | h <;> simp [effectiveDecimals, h]
  · rcases h with h | h <;> simp [txAmount, effectiveDecimals, h]

/-- C10 witness: the fallback applied to the concrete zero-decimal
record. -/
theorem zero_decimal_fallback_witness :
    effectiveDecimals txZeroDec = 18 ∧
    txAmount txZeroDec = ⟨txZeroDec.value, 10 ^ 18⟩ :=
  ⟨(zero_decimal_fallback txZeroDec (Or.inr rfl)).1,
    (zero_decimal_fallback txZeroDec (Or.inr rfl)).2.1⟩
